import Mathlib

/-!
Verification of the scraper repository against its specification.

The pure Lean functions below are shallow embeddings of the Go source:
the Retrying Downloader (DownloadFile in utils.go / downloadImage in
scraper.go), the sequential image loop, the paginated chapter-list walk,
the worker pool, the Comick hash-resolution strategies, the Asura catalog
parsing, destination-path construction, and the DownloadAll pipelines.
Network, filesystem and callee effects are made explicit: a fetcher is a
function from request occasion to outcome, and the loop recursion
mirrors the Go control flow statement by statement.
-/

namespace Scrapers

/-! ## Retrying Downloader (utils.go DownloadFile, scraper.go downloadImage)

The two Go functions have identical bodies.  One attempt of the loop is
described by what the fetcher and a subsequent file create/copy would do
on that attempt; the loop recursion then matches the Go `for attempt`
loop.  The destination file state and an event trace (request, file
created, partial file removed, backoff sleep, file completed) are
threaded through so that the sleep/removal claims are observable. -/

/-- What `fetcher.Get` plus the subsequent `os.Create` / `io.Copy` would do
on one attempt: a transport error, or a response with a status code and
the success of the create and copy steps (the two Bools only matter when
the status is 200). -/
inductive AttemptResult where
  | fetchErr
  | resp (status : Nat) (createOk : Bool) (copyOk : Bool)
deriving DecidableEq, Repr

/-- State of the destination path. -/
inductive FileState where
  | absent
  | halfWritten
  | complete
deriving DecidableEq, Repr

/-- How the Go function returned: nil, the immediate HTTP-404 error, or the
"failed after N attempts" error. -/
inductive DLRes where
  | success
  | notFound
  | exhausted
deriving DecidableEq, Repr

/-- Observable events of one downloader call, in order. -/
inductive Ev where
  | req
  | created
  | removed
  | sleep (d : Nat)
  | completed
deriving DecidableEq, Repr

structure DLOut where
  res : DLRes
  requests : Nat
  sleepTotal : Nat
  file : FileState
  events : List Ev
deriving DecidableEq, Repr

/-- The retry loop of DownloadFile / downloadImage.  `attempt` is the Go
loop index, `rem` the remaining iterations (`config.MaxRetries - attempt`),
`delay` is `config.RetryDelay`; a failed attempt sleeps
`delay * (attempt+1)` exactly as `time.Sleep(config.RetryDelay *
time.Duration(attempt+1))` does.  A 404 returns at once; a failed copy
removes the partial file (`os.Remove`) before the backoff sleep. -/
def dlRun (fetch : Nat → AttemptResult) (delay : Nat) :
    Nat → Nat → FileState → DLOut
  | _, 0, fs => ⟨.exhausted, 0, 0, fs, []⟩
  | attempt, rem+1, fs =>
    match fetch attempt with
    | .fetchErr =>
      let rest := dlRun fetch delay (attempt+1) rem fs
      ⟨rest.res, rest.requests+1, delay*(attempt+1) + rest.sleepTotal, rest.file,
        .req :: .sleep (delay*(attempt+1)) :: rest.events⟩
    | .resp code createOk copyOk =>
      if code = 200 then
        if createOk then
          if copyOk then
            ⟨.success, 1, 0, .complete, [.req, .created, .completed]⟩
          else
            let rest := dlRun fetch delay (attempt+1) rem .absent
            ⟨rest.res, rest.requests+1, delay*(attempt+1) + rest.sleepTotal, rest.file,
              .req :: .created :: .removed :: .sleep (delay*(attempt+1)) :: rest.events⟩
        else
          let rest := dlRun fetch delay (attempt+1) rem fs
          ⟨rest.res, rest.requests+1, delay*(attempt+1) + rest.sleepTotal, rest.file,
            .req :: .sleep (delay*(attempt+1)) :: rest.events⟩
      else if code = 404 then
        ⟨.notFound, 1, 0, fs, [.req]⟩
      else
        let rest := dlRun fetch delay (attempt+1) rem fs
        ⟨rest.res, rest.requests+1, delay*(attempt+1) + rest.sleepTotal, rest.file,
          .req :: .sleep (delay*(attempt+1)) :: rest.events⟩

/-- DownloadFile url filepath headers fetcher config: the loop starts at
attempt 0 with `config.MaxRetries` iterations and no file at the
destination. -/
def DownloadFile (fetch : Nat → AttemptResult) (delay maxRetries : Nat) : DLOut :=
  dlRun fetch delay 0 maxRetries .absent

/-- A transient failure in the sense of the retry policy: transport error,
or a status other than 200 and 404. -/
def Transient : AttemptResult → Prop
  | .fetchErr => True
  | .resp code _ _ => code ≠ 200 ∧ code ≠ 404

/-- Branch lemma: a 404 response returns the terminal not-found error at
once, with one request, no sleep, no file event. -/
theorem dlRun_404 (fetch : Nat → AttemptResult) (delay attempt rem : Nat)
    (fs : FileState) (c k : Bool) (h : fetch attempt = .resp 404 c k) :
    dlRun fetch delay attempt (rem+1) fs = ⟨.notFound, 1, 0, fs, [.req]⟩ := by
  simp [dlRun, h]

/-- Branch lemma: a transient failure performs the request, sleeps
`delay * (attempt+1)`, and continues with the next attempt. -/
theorem dlRun_transient (fetch : Nat → AttemptResult) (delay attempt rem : Nat)
    (fs : FileState) (h : Transient (fetch attempt)) :
    dlRun fetch delay attempt (rem+1) fs =
      ⟨(dlRun fetch delay (attempt+1) rem fs).res,
       (dlRun fetch delay (attempt+1) rem fs).requests + 1,
       delay*(attempt+1) + (dlRun fetch delay (attempt+1) rem fs).sleepTotal,
       (dlRun fetch delay (attempt+1) rem fs).file,
       .req :: .sleep (delay*(attempt+1)) :: (dlRun fetch delay (attempt+1) rem fs).events⟩ := by
  cases e : fetch attempt with
  | fetchErr => simp [dlRun, e]
  | resp code cOk pOk =>
    rw [e] at h
    obtain ⟨h200, h404⟩ := h
    simp [dlRun, e, h200, h404]

/-- Branch lemma: a 200 response whose copy fails partway removes the
partial file and continues from an absent destination, after the backoff
sleep. -/
theorem dlRun_copyFail (fetch : Nat → AttemptResult) (delay attempt rem : Nat)
    (fs : FileState) (h : fetch attempt = .resp 200 true false) :
    dlRun fetch delay attempt (rem+1) fs =
      ⟨(dlRun fetch delay (attempt+1) rem .absent).res,
       (dlRun fetch delay (attempt+1) rem .absent).requests + 1,
       delay*(attempt+1) + (dlRun fetch delay (attempt+1) rem .absent).sleepTotal,
       (dlRun fetch delay (attempt+1) rem .absent).file,
       .req :: .created :: .removed :: .sleep (delay*(attempt+1)) ::
         (dlRun fetch delay (attempt+1) rem .absent).events⟩ := by
  simp [dlRun, h]

/-- Branch lemma: a 200 response whose `os.Create` fails continues with
the next attempt after the backoff sleep, the destination untouched. -/
theorem dlRun_createFail (fetch : Nat → AttemptResult) (delay attempt rem : Nat)
    (fs : FileState) (k : Bool) (h : fetch attempt = .resp 200 false k) :
    dlRun fetch delay attempt (rem+1) fs =
      ⟨(dlRun fetch delay (attempt+1) rem fs).res,
       (dlRun fetch delay (attempt+1) rem fs).requests + 1,
       delay*(attempt+1) + (dlRun fetch delay (attempt+1) rem fs).sleepTotal,
       (dlRun fetch delay (attempt+1) rem fs).file,
       .req :: .sleep (delay*(attempt+1)) :: (dlRun fetch delay (attempt+1) rem fs).events⟩ := by
  simp [dlRun, h]

/-- Branch lemma: a 200 response with a successful copy returns success
with the file complete. -/
theorem dlRun_success (fetch : Nat → AttemptResult) (delay attempt rem : Nat)
    (fs : FileState) (h : fetch attempt = .resp 200 true true) :
    dlRun fetch delay attempt (rem+1) fs =
      ⟨.success, 1, 0, .complete, [.req, .created, .completed]⟩ := by
  simp [dlRun, h]

/-- Starting from an absent destination, the run never leaves a half
written file: the file is complete exactly on success, and absent on any
failure return. -/
theorem dlRun_file_invariant (fetch : Nat → AttemptResult) (delay : Nat) :
    ∀ rem attempt,
      ((dlRun fetch delay attempt rem .absent).res = .success ↔
        (dlRun fetch delay attempt rem .absent).file = .complete)
      ∧ ((dlRun fetch delay attempt rem .absent).res ≠ .success →
        (dlRun fetch delay attempt rem .absent).file = .absent) := by
  intro rem
  induction rem with
  | zero => intro attempt; simp [dlRun]
  | succ n ih =>
    intro attempt
    cases e : fetch attempt with
    | fetchErr =>
      have h := dlRun_transient fetch delay attempt n .absent (by rw [e]; trivial)
      rw [h]
      exact ih (attempt+1)
    | resp code cOk pOk =>
      by_cases h200 : code = 200
      · subst h200
        cases cOk with
        | true =>
          cases pOk with
          | true => rw [dlRun_success fetch delay attempt n .absent e]; simp
          | false =>
            rw [dlRun_copyFail fetch delay attempt n .absent e]
            exact ih (attempt+1)
        | false =>
          rw [dlRun_createFail fetch delay attempt n .absent pOk e]
          exact ih (attempt+1)
      · by_cases h404 : code = 404
        · subst h404
          rw [dlRun_404 fetch delay attempt n .absent cOk pOk e]
          simp
        · have h := dlRun_transient fetch delay attempt n .absent
            (by rw [e]; exact ⟨h200, h404⟩)
          rw [h]
          exact ih (attempt+1)

/-- Every removal of a partial file is immediately followed by the
backoff sleep in the event trace. -/
def removedThenSleep (l : List Ev) : Prop :=
  ∀ i, l.get? i = some .removed → ∃ d, l.get? (i+1) = some (.sleep d)

theorem dlRun_removedThenSleep (fetch : Nat → AttemptResult) (delay : Nat) :
    ∀ rem attempt fs, removedThenSleep (dlRun fetch delay attempt rem fs).events := by
  intro rem
  induction rem with
  | zero => intro attempt fs i h; simp [dlRun] at h
  | succ n ih =>
    intro attempt fs i h
    cases e : fetch attempt with
    | fetchErr =>
      rw [dlRun_transient fetch delay attempt n fs (by rw [e]; trivial)] at h ⊢
      match i, h with
      | Nat.succ (Nat.succ j), h =>
        simpa using ih (attempt+1) fs j (by simpa using h)
    | resp code cOk pOk =>
      by_cases h200 : code = 200
      · subst h200
        cases cOk with
        | true =>
          cases pOk with
          | true =>
            rw [dlRun_success fetch delay attempt n fs e] at h ⊢
            match i, h with
            | 0, h => simp at h
            | 1, h => simp at h
            | 2, h => simp at h
            | Nat.succ (Nat.succ (Nat.succ j)), h => simp at h
          | false =>
            rw [dlRun_copyFail fetch delay attempt n fs e] at h ⊢
            match i, h with
            | 2, _ => exact ⟨delay*(attempt+1), rfl⟩
            | Nat.succ (Nat.succ (Nat.succ (Nat.succ j))), h =>
              simpa using ih (attempt+1) .absent j (by simpa using h)
        | false =>
          rw [dlRun_createFail fetch delay attempt n fs pOk e] at h ⊢
          match i, h with
          | Nat.succ (Nat.succ j), h =>
            simpa using ih (attempt+1) fs j (by simpa using h)
      · by_cases h404 : code = 404
        · subst h404
          rw [dlRun_404 fetch delay attempt n fs cOk pOk e] at h ⊢
          match i, h with
          | 0, h => simp at h
          | Nat.succ j, h => simp at h
        · rw [dlRun_transient fetch delay attempt n fs (by rw [e]; exact ⟨h200, h404⟩)] at h ⊢
          match i, h with
          | Nat.succ (Nat.succ j), h =>
            simpa using ih (attempt+1) fs j (by simpa using h)

/-- C1: with MaxRetries at least 1, a 404 on the first attempt makes the
Retrying Downloader perform exactly one request, sleep zero time, create
no file, and return the terminal not-found error; and in general a 404 on
any attempt returns at once without a retry. -/
theorem c1_notFound_never_retried (fetch : Nat → AttemptResult)
    (delay maxRetries : Nat) (c k : Bool)
    (hmr : 1 ≤ maxRetries) (h0 : fetch 0 = .resp 404 c k) :
    DownloadFile fetch delay maxRetries = ⟨.notFound, 1, 0, .absent, [.req]⟩
    ∧ (∀ (g : Nat → AttemptResult) (a rem : Nat) (fs : FileState) (c2 k2 : Bool),
        g a = .resp 404 c2 k2 →
        dlRun g delay a (rem+1) fs = ⟨.notFound, 1, 0, fs, [.req]⟩) := by
  constructor
  · obtain ⟨m, rfl⟩ : ∃ m, maxRetries = m + 1 := ⟨maxRetries - 1, by omega⟩
    exact dlRun_404 fetch delay 0 m .absent c k h0
  · intro g a rem fs c2 k2 hg
    exact dlRun_404 g delay a rem fs c2 k2 hg

theorem c1_witness :
    DownloadFile (fun _ => .resp 404 true true) 7 3 = ⟨.notFound, 1, 0, .absent, [.req]⟩ :=
  (c1_notFound_never_retried (fun _ => .resp 404 true true) 7 3 true true
    (by decide) rfl).1

/-- C4: with MaxRetries = 3 and base delay D, two transient failures
followed by a complete success return nil with total sleep D*1 + D*2;
and in general the backoff sleep charged after a failed attempt with Go
loop index a (attempt number a+1) is D*(a+1). -/
theorem c4_linear_backoff (fetch : Nat → AttemptResult) (d : Nat)
    (h0 : Transient (fetch 0)) (h1 : Transient (fetch 1))
    (h2 : fetch 2 = .resp 200 true true) :
    (DownloadFile fetch d 3).res = .success
    ∧ (DownloadFile fetch d 3).sleepTotal = d * 1 + d * 2
    ∧ (DownloadFile fetch d 3).requests = 3
    ∧ (∀ (g : Nat → AttemptResult) (a rem : Nat) (fs : FileState),
        Transient (g a) →
        (dlRun g d a (rem+1) fs).sleepTotal =
          d * (a+1) + (dlRun g d (a+1) rem fs).sleepTotal) := by
  have e : DownloadFile fetch d 3 =
      ⟨.success, 3, d * 1 + (d * 2 + 0), .complete,
        .req :: .sleep (d*1) :: .req :: .sleep (d*2) ::
          [.req, .created, .completed]⟩ := by
    rw [DownloadFile, dlRun_transient fetch d 0 2 .absent h0,
      dlRun_transient fetch d 1 1 .absent h1,
      dlRun_success fetch d 2 0 .absent h2]
  refine ⟨by rw [e], by rw [e]; ring, by rw [e], ?_⟩
  intro g a rem fs hg
  rw [dlRun_transient g d a rem fs hg]

theorem c4_witness :
    (DownloadFile (fun n => match n with
      | 0 => .fetchErr | 1 => .resp 503 true true | _ => .resp 200 true true) 10 3).res
        = .success
    ∧ (DownloadFile (fun n => match n with
      | 0 => .fetchErr | 1 => .resp 503 true true | _ => .resp 200 true true) 10 3).sleepTotal
        = 10 * 1 + 10 * 2 := by
  have h := c4_linear_backoff (fun n => match n with
    | 0 => .fetchErr | 1 => .resp 503 true true | _ => .resp 200 true true) 10
    trivial ⟨by decide, by decide⟩ rfl
  exact ⟨h.1, h.2.1⟩

/-- C5: starting from an absent destination, a failed copy removes the
partial file before the backoff sleep (event trace), the run never ends
with a half-written file, a terminal failure leaves the destination
absent, and a file persists at the destination exactly when the byte
stream was copied without error (success). -/
theorem c5_clean_destination (fetch : Nat → AttemptResult) (delay rem attempt : Nat) :
    ((dlRun fetch delay attempt rem .absent).res = .success ↔
      (dlRun fetch delay attempt rem .absent).file = .complete)
    ∧ ((dlRun fetch delay attempt rem .absent).res ≠ .success →
      (dlRun fetch delay attempt rem .absent).file = .absent)
    ∧ (∀ fs, removedThenSleep (dlRun fetch delay attempt rem fs).events)
    ∧ (∀ (g : Nat → AttemptResult) (a r2 : Nat) (fs : FileState),
        g a = .resp 200 true false →
        (dlRun g delay a (r2+1) fs).file = (dlRun g delay (a+1) r2 .absent).file) := by
  refine ⟨(dlRun_file_invariant fetch delay rem attempt).1,
    (dlRun_file_invariant fetch delay rem attempt).2,
    fun fs => dlRun_removedThenSleep fetch delay rem attempt fs,
    fun g a r2 fs hg => ?_⟩
  rw [dlRun_copyFail g delay a r2 fs hg]

theorem c5_witness :
    (dlRun (fun _ => .resp 200 true false) 1 0 3 .absent).file = .absent :=
  (c5_clean_destination (fun _ => .resp 200 true false) 1 3 0).2.1 (by decide)

/-! ## Sequential image enumeration
(scraper.go downloadChapterImagesSequential, comick_adapter.go
downloadChapter image loop)

`dl i` abstracts whether `downloadImage` / `DownloadFile` for image index
i returns nil.  The loop runs indices 0..199, counts consecutive
failures, breaks once they reach 3, and resets the counter on success. -/

structure SeqOut where
  downloaded : List Nat
  attempts : Nat
deriving DecidableEq, Repr

/-- The body of the `for i := 0; i < maxImages; i++` loop with the
consecutive-404 counter; `rem` is the remaining iteration budget
(`maxImages - i`). -/
def seqGo (dl : Nat → Bool) : Nat → Nat → Nat → SeqOut
  | _, 0, _ => ⟨[], 0⟩
  | i, rem+1, consec =>
    if dl i then
      ⟨i :: (seqGo dl (i+1) rem 0).downloaded, (seqGo dl (i+1) rem 0).attempts + 1⟩
    else if 3 ≤ consec + 1 then ⟨[], 1⟩
    else ⟨(seqGo dl (i+1) rem (consec+1)).downloaded,
          (seqGo dl (i+1) rem (consec+1)).attempts + 1⟩

/-- downloadChapterImagesSequential: maxImages = 200, max404s = 3,
starting at index 0 with a zero counter.  (The trailing
"no images downloaded" error check of the Go function is not needed by
any claim and is omitted here.) -/
def downloadChapterImagesSequential (dl : Nat → Bool) : SeqOut :=
  seqGo dl 0 200 0

/-- C2: with successes at indices 0..4 and failures from index 5 on, the
loop attempts indices 0..7 (8 attempts) and downloads exactly images
0..4; in general a success resets the consecutive-failure counter to
zero and continues, a failure below the threshold of 3 continues at the
next index, and a failure reaching the threshold stops the loop. -/
theorem c2_sequential_enumeration :
    (downloadChapterImagesSequential (fun i => decide (i < 5))).downloaded = [0, 1, 2, 3, 4]
    ∧ (downloadChapterImagesSequential (fun i => decide (i < 5))).attempts = 8
    ∧ (∀ (dl : Nat → Bool) (i rem consec : Nat), dl i = true →
        seqGo dl i (rem+1) consec =
          ⟨i :: (seqGo dl (i+1) rem 0).downloaded, (seqGo dl (i+1) rem 0).attempts + 1⟩)
    ∧ (∀ (dl : Nat → Bool) (i rem consec : Nat), dl i = false → consec + 1 < 3 →
        seqGo dl i (rem+1) consec =
          ⟨(seqGo dl (i+1) rem (consec+1)).downloaded,
           (seqGo dl (i+1) rem (consec+1)).attempts + 1⟩)
    ∧ (∀ (dl : Nat → Bool) (i rem consec : Nat), dl i = false → 3 ≤ consec + 1 →
        seqGo dl i (rem+1) consec = ⟨[], 1⟩) := by
  refine ⟨by decide, by decide, ?_, ?_, ?_⟩
  · intro dl i rem consec h
    simp [seqGo, h]
  · intro dl i rem consec h hc
    simp [seqGo, h, hc, Nat.not_le.mpr hc]
  · intro dl i rem consec h hc
    simp [seqGo, h, hc]

theorem c2_witness :
    seqGo (fun _ => true) 0 6 0 =
      ⟨0 :: (seqGo (fun _ => true) 1 5 0).downloaded,
       (seqGo (fun _ => true) 1 5 0).attempts + 1⟩ :=
  c2_sequential_enumeration.2.2.1 (fun _ => true) 0 5 0 rfl

/-! ## Paginated chapter list
(comick_adapter.go getChapterList, scraper.go getChapterListPaginated)

A page fetch either fails at transport / with status 404, fails to
decode, or decodes to a list of chapters.  The walker starts at page 0,
counts consecutive failures in `consecutive404s`, resets it on success,
stops on an empty page, after 3 consecutive failures, or past the
100-page safety limit, and always returns a nil error. -/

structure ComickChapter where
  hid : String
  chap : String
  lang : String
deriving DecidableEq, Repr

inductive PageResult where
  | fetchFail
  | decodeFail
  | pageData (cs : List ComickChapter)
deriving DecidableEq, Repr

inductive StopReason where
  | emptyPage
  | failures
  | cap
  | fuelOut
deriving DecidableEq, Repr

structure ChapterListOut where
  chapters : List ComickChapter
  stop : StopReason
  err : Option String
deriving DecidableEq, Repr

/-- The URL built for a chapter-list page: the first page is
un-parameterized, later pages carry an explicit page number. -/
def chapterListURL (baseURL slug : String) (page : Nat) : String :=
  if page = 0 then baseURL ++ r"/api/comics/" ++ slug ++ r"/chapter-list"
  else baseURL ++ r"/api/comics/" ++ slug ++ r"/chapter-list?page=" ++ Nat.repr page

/-- The `for {}` loop of getChapterList.  `fuel` is a recursion budget
only; the theorem below shows it is never exhausted from the real entry
point. -/
def chapterListGo (fetch : Nat → PageResult) :
    Nat → Nat → Nat → List ComickChapter → ChapterListOut
  | 0, _, _, acc => ⟨acc, .fuelOut, none⟩
  | fuel+1, page, consec, acc =>
    match fetch page with
    | .fetchFail =>
      if 3 ≤ consec + 1 then ⟨acc, .failures, none⟩
      else chapterListGo fetch fuel (page+1) (consec+1) acc
    | .decodeFail =>
      if 3 ≤ consec + 1 then ⟨acc, .failures, none⟩
      else chapterListGo fetch fuel (page+1) (consec+1) acc
    | .pageData cs =>
      if cs.isEmpty then ⟨acc ++ cs.filter (fun c => c.lang == r"en"), .emptyPage, none⟩
      else if 100 < page + 1 then ⟨acc ++ cs.filter (fun c => c.lang == r"en"), .cap, none⟩
      else chapterListGo fetch fuel (page+1) 0 (acc ++ cs.filter (fun c => c.lang == r"en"))

def getChapterList (fetch : Nat → PageResult) : ChapterListOut :=
  chapterListGo fetch 400 0 0 []

/-- The walker always returns a nil error, whatever the page outcomes. -/
theorem chapterListGo_err_none (fetch : Nat → PageResult) :
    ∀ fuel page consec acc, (chapterListGo fetch fuel page consec acc).err = none := by
  intro fuel
  induction fuel with
  | zero => intro page consec acc; simp [chapterListGo]
  | succ n ih =>
    intro page consec acc
    cases e : fetch page with
    | fetchFail =>
      by_cases h : 3 ≤ consec + 1 <;> simp [chapterListGo, e, h, ih]
    | decodeFail =>
      by_cases h : 3 ≤ consec + 1 <;> simp [chapterListGo, e, h, ih]
    | pageData cs =>
      by_cases h : cs.isEmpty <;> by_cases h2 : 100 < page + 1 <;>
        simp [chapterListGo, e, h, h2, ih]

/-- Loop invariant tying the consecutive-failure counter to how far past
page 100 the walker can be. -/
def CLInv (page consec : Nat) : Prop :=
  consec ≤ 2 ∧ page ≤ 102 ∧ (101 ≤ page → page - 100 ≤ consec)

/-- The fuel budget of 400 is never the reason the walker stops: from the
real entry point the loop always terminates on an empty page, on three
consecutive failures, or at the safety cap. -/
theorem chapterListGo_no_fuelOut (fetch : Nat → PageResult) :
    ∀ fuel page consec acc, CLInv page consec → 103 ≤ fuel + page →
      (chapterListGo fetch fuel page consec acc).stop ≠ .fuelOut := by
  intro fuel
  induction fuel with
  | zero =>
    intro page consec acc hinv hfuel
    obtain ⟨hc, hp, hlate⟩ := hinv
    exact absurd hfuel (by omega)
  | succ n ih =>
    intro page consec acc hinv hfuel
    obtain ⟨hc, hp, hlate⟩ := hinv
    cases e : fetch page with
    | fetchFail =>
      by_cases h : 3 ≤ consec + 1
      · simp [chapterListGo, e, h]
      · simp only [chapterListGo, e, if_neg h]
        exact ih (page+1) (consec+1) acc ⟨by omega, by omega, by omega⟩ (by omega)
    | decodeFail =>
      by_cases h : 3 ≤ consec + 1
      · simp [chapterListGo, e, h]
      · simp only [chapterListGo, e, if_neg h]
        exact ih (page+1) (consec+1) acc ⟨by omega, by omega, by omega⟩ (by omega)
    | pageData cs =>
      by_cases h : cs.isEmpty
      · simp [chapterListGo, e, h]
      · by_cases h2 : 100 < page + 1
        · simp [chapterListGo, e, h, h2]
        · simp only [chapterListGo, e]
          rw [if_neg h, if_neg h2]
          exact ih (page+1) 0 _ ⟨by omega, by omega, by omega⟩ (by omega)

/-- C3: the chapter-list walk requests the un-parameterized first page
and then explicit page numbers; a failed fetch/decode below the
threshold continues at the next page with the counter bumped, three
consecutive failures stop the walk, an empty decoded page stops it, a
successful non-empty page within the cap resets the counter to zero and
gathers the English chapters, a successful page past the 100-page safety
limit stops the walk; the fuel budget is never the stopping reason and
the returned error is always nil. -/
theorem c3_pagination (b s : String) (fetch : Nat → PageResult) :
    chapterListURL b s 0 = b ++ r"/api/comics/" ++ s ++ r"/chapter-list"
    ∧ (∀ p, p ≠ 0 → chapterListURL b s p =
        b ++ r"/api/comics/" ++ s ++ r"/chapter-list?page=" ++ Nat.repr p)
    ∧ (∀ (g : Nat → PageResult) (fuel page consec : Nat) (acc : List ComickChapter),
        (g page = .fetchFail ∨ g page = .decodeFail) → consec + 1 < 3 →
        chapterListGo g (fuel+1) page consec acc =
          chapterListGo g fuel (page+1) (consec+1) acc)
    ∧ (∀ (g : Nat → PageResult) (fuel page consec : Nat) (acc : List ComickChapter),
        (g page = .fetchFail ∨ g page = .decodeFail) → 3 ≤ consec + 1 →
        chapterListGo g (fuel+1) page consec acc = ⟨acc, .failures, none⟩)
    ∧ (∀ (g : Nat → PageResult) (fuel page consec : Nat) (acc : List ComickChapter),
        g page = .pageData [] →
        chapterListGo g (fuel+1) page consec acc = ⟨acc, .emptyPage, none⟩)
    ∧ (∀ (g : Nat → PageResult) (fuel page consec : Nat) (acc : List ComickChapter)
        (cs : List ComickChapter), g page = .pageData cs → cs ≠ [] → page + 1 ≤ 100 →
        chapterListGo g (fuel+1) page consec acc =
          chapterListGo g fuel (page+1) 0 (acc ++ cs.filter (fun c => c.lang == r"en")))
    ∧ (∀ (g : Nat → PageResult) (fuel page consec : Nat) (acc : List ComickChapter)
        (cs : List ComickChapter), g page = .pageData cs → cs ≠ [] → 100 < page + 1 →
        chapterListGo g (fuel+1) page consec acc =
          ⟨acc ++ cs.filter (fun c => c.lang == r"en"), .cap, none⟩)
    ∧ (getChapterList fetch).stop ≠ .fuelOut
    ∧ (getChapterList fetch).err = none := by
  refine ⟨by simp [chapterListURL], fun p hp => by simp [chapterListURL, hp],
    ?_, ?_, ?_, ?_, ?_, ?_, ?_⟩
  · intro g fuel page consec acc hfail hc
    rcases hfail with h | h <;> simp [chapterListGo, h, Nat.not_le.mpr hc]
  · intro g fuel page consec acc hfail hc
    rcases hfail with h | h <;> simp [chapterListGo, h, hc]
  · intro g fuel page consec acc h
    simp [chapterListGo, h]
  · intro g fuel page consec acc cs h hne hcap
    simp [chapterListGo, h, hne, Nat.not_lt.mpr hcap]
  · intro g fuel page consec acc cs h hne hcap
    simp [chapterListGo, h, hne, hcap]
  · exact chapterListGo_no_fuelOut fetch 400 0 0 [] ⟨by omega, by omega, by omega⟩ (by omega)
  · exact chapterListGo_err_none fetch 400 0 0 []

theorem c3_witness :
    chapterListGo (fun _ => .pageData []) 5 0 0 [] = ⟨[], .emptyPage, none⟩ :=
  (c3_pagination r"" r"" (fun _ => .pageData [])).2.2.2.2.1
    (fun _ => .pageData []) 4 0 0 [] rfl

/-! ## Worker pool (workerpool.go)

The pool is a buffered channel of capacity `limit` used as a counting
semaphore: `Acquire` sends (blocks while the buffer is full, i.e. while
`limit` slots are held), `Release` receives (blocks while the buffer is
empty).  The state is the number of occupied buffer slots, which equals
the number of completed Acquire calls minus completed Release calls. -/

structure WorkerPool where
  limit : Nat
deriving DecidableEq, Repr

def NewWorkerPool (limit : Nat) : WorkerPool := ⟨limit⟩

/-- One completed channel operation on the semaphore: an Acquire can
complete only while fewer than `limit` slots are held, a Release only
while at least one is held. -/
inductive PoolStep (p : WorkerPool) : Nat → Nat → Prop
  | acquire {held : Nat} : held < p.limit → PoolStep p held (held + 1)
  | release {held : Nat} : 0 < held → PoolStep p held (held - 1)

/-- States reachable from the freshly constructed (empty) pool. -/
inductive PoolReach (p : WorkerPool) : Nat → Prop
  | init : PoolReach p 0
  | step {s t : Nat} : PoolReach p s → PoolStep p s t → PoolReach p t

/-- C6: for pool size N at least 1, in every reachable state of the pool
of NewWorkerPool N the number of held slots (completed Acquires minus
completed Releases) never exceeds N, and an Acquire can complete only in
a state holding fewer than N slots. -/
theorem c6_pool_bound (N : Nat) (hN : 1 ≤ N) :
    (∀ s, PoolReach (NewWorkerPool N) s → s ≤ N)
    ∧ (∀ s t, PoolStep (NewWorkerPool N) s t → t = s + 1 → s < N) := by
  constructor
  · intro s hs
    induction hs with
    | init => exact Nat.zero_le N
    | step hr hstep ih =>
      cases hstep with
      | acquire hlt => exact hlt
      | release hpos => omega
  · intro s t hstep heq
    cases hstep with
    | acquire hlt => exact hlt
    | release hpos => omega

theorem c6_witness : PoolReach (NewWorkerPool 3) 2 ∧ 2 ≤ 3 :=
  have h2 : PoolReach (NewWorkerPool 3) 2 :=
    .step (.step .init (.acquire (by decide))) (.acquire (by decide))
  ⟨h2, (c6_pool_bound 3 (by decide)).1 2 h2⟩

/-! ## String utilities for the hash-extraction strategies

Page content is modelled as `List Char` (the inputs of interest are
ASCII, where Go byte indices and rune indices coincide).  `strIndex`
is strings.Index returning `Option Nat` in place of the -1 sentinel. -/

/-- Whether `pat` occurs at the head of `s`. -/
def leadMatch : List Char → List Char → Bool
  | [], _ => true
  | _ :: _, [] => false
  | p :: ps, c :: cs => p == c && leadMatch ps cs

def strIndexAux (pat : List Char) : List Char → Nat → Option Nat
  | [], i => if leadMatch pat [] then some i else none
  | c :: rest, i =>
    if leadMatch pat (c :: rest) then some i else strIndexAux pat rest (i+1)

/-- strings.Index: index of the first occurrence of `pat` in `s`. -/
def strIndex (s pat : List Char) : Option Nat := strIndexAux pat s 0

/-- strings.Contains. -/
def containsSub (s pat : List Char) : Bool := (strIndex s pat).isSome

/-- IsAlphaNumeric from utils.go. -/
def isAlnumChar (c : Char) : Bool :=
  (Char.ofNat 97 ≤ c && c ≤ Char.ofNat 122) ||
  (Char.ofNat 65 ≤ c && c ≤ Char.ofNat 90) ||
  (Char.ofNat 48 ≤ c && c ≤ Char.ofNat 57)

def IsAlphaNumeric (s : List Char) : Bool := s.all isAlnumChar

/-! ## Hash extraction (scraper.go getChapterImageHashAdvanced and the
functions it calls) -/

/-- The direct CDN pattern `cdn1.comicknew.pictures/SLUG/0_CHAP/en/`. -/
def cdnPatDirect (slug chap : List Char) : List Char :=
  r"cdn1.comicknew.pictures/".data ++ slug ++ r"/0_".data ++ chap ++ r"/en/".data

/-- The escaped pattern of Go string "cdn1.comicknew.pictures\\/%s\\/0_%s\\/en\\/". -/
def escPat1 (slug chap : List Char) : List Char :=
  r"cdn1.comicknew.pictures\/".data ++ slug ++ r"\/0_".data ++ chap ++ r"\/en\/".data

/-- The escaped pattern of Go string "\\/cdn1.comicknew.pictures\\/%s\\/0_%s\\/en\\/". -/
def escPat2 (slug chap : List Char) : List Char :=
  r"\/".data ++ escPat1 slug chap

/-- The slice `htmlContent[st:st+end]` up to the next "/", kept only if
it is an 8-character alphanumeric hash. -/
def hashAfter (html : List Char) (st : Nat) : List Char :=
  match strIndex (html.drop st) (r"/".data) with
  | some e =>
    if ((html.drop st).take e).length == 8 && IsAlphaNumeric ((html.drop st).take e) then
      (html.drop st).take e
    else []
  | none => []

/-- The primary-pattern part of extractHashFromHTML. -/
def extractDirect (html slug chap : List Char) : List Char :=
  match strIndex html (cdnPatDirect slug chap) with
  | some st => hashAfter html (st + (cdnPatDirect slug chap).length)
  | none => []

/-- strings.ReplaceAll(pattern, "\\", ""). -/
def removeBS (l : List Char) : List Char := l.filter (fun c => !(c == Char.ofNat 92))

/-- strings.TrimPrefix(s, "/"). -/
def trimLeadSlash : List Char → List Char
  | [] => []
  | c :: rest => if c == Char.ofNat 47 then rest else c :: rest

/-- extractFromEscapedPattern from scraper.go: first look for the
un-escaped form of the pattern, then the escaped form; from the match,
find the literal characters backslash-slash-e-n-backslash-slash, skip 5
characters, cut at the next escaped slash, and trim a leading slash. -/
def extractFromEscapedPattern (content pat : List Char) : List Char :=
  let startOpt :=
    match strIndex content (removeBS pat) with
    | some st => some st
    | none => strIndex content pat
  match startOpt with
  | none => []
  | some st =>
    match strIndex (content.drop st) (r"\/en\/".data) with
    | none => []
    | some idx =>
      match strIndex ((content.drop st).drop (idx + 5)) (r"\/".data) with
      | none => []
      | some slashIdx =>
        let hash := trimLeadSlash (((content.drop st).drop (idx + 5)).take slashIdx)
        if hash.length == 8 && IsAlphaNumeric hash then hash else []

/-- extractHashFromHTML: the direct pattern, then the two escaped
patterns in order; an invalid candidate falls through to the next
pattern. -/
def extractHashFromHTML (html slug chap : List Char) : List Char :=
  if extractDirect html slug chap ≠ [] then extractDirect html slug chap
  else if extractFromEscapedPattern html (escPat1 slug chap) ≠ [] then
    extractFromEscapedPattern html (escPat1 slug chap)
  else extractFromEscapedPattern html (escPat2 slug chap)

/-- The index-0 test URL of validateHash. -/
def imageTestURL (slug chap hash : List Char) : List Char :=
  r"https://cdn1.comicknew.pictures/".data ++ slug ++ r"/0_".data ++ chap ++
    r"/en/".data ++ hash ++ r"/0.webp".data

/-- validateHash: succeeds exactly when the fetch of image index 0 for
the candidate hash returns status 200 (`fetchStatus` returns none on a
transport error). -/
def validateHash (fetchStatus : List Char → Option Nat) (slug chap hash : List Char) : Bool :=
  fetchStatus (imageTestURL slug chap hash) == some 200

/-- The delimiter set of the strings.FieldsFunc call in
findHashInContent. -/
def isDelimC (c : Char) : Bool :=
  c == Char.ofNat 34 || c == Char.ofNat 39 || c == Char.ofNat 44 ||
  c == Char.ofNat 58 || c == Char.ofNat 123 || c == Char.ofNat 125 ||
  c == Char.ofNat 91 || c == Char.ofNat 93 || c == Char.ofNat 32 ||
  c == Char.ofNat 10 || c == Char.ofNat 9 || c == Char.ofNat 47 ||
  c == Char.ofNat 92

/-- strings.FieldsFunc: maximal runs of non-delimiter characters. -/
def fieldsAux : List Char → List Char → List (List Char)
  | [], cur => if cur.isEmpty then [] else [cur.reverse]
  | c :: rest, cur =>
    if isDelimC c then
      if cur.isEmpty then fieldsAux rest [] else cur.reverse :: fieldsAux rest []
    else fieldsAux rest (c :: cur)

/-- strings.Trim of the word with the double-quote and single-quote
cutset. -/
def trimQuotes (w : List Char) : List Char :=
  ((w.dropWhile (fun c => c == Char.ofNat 34 || c == Char.ofNat 39)).reverse.dropWhile
    (fun c => c == Char.ofNat 34 || c == Char.ofNat 39)).reverse

/-- The word loop of findHashInContent: the first trimmed 8-character
alphanumeric word that the validator accepts. -/
def findHashWords (validate : List Char → Bool) : List (List Char) → List Char
  | [] => []
  | w :: ws =>
    if (trimQuotes w).length == 8 && IsAlphaNumeric (trimQuotes w)
        && validate (trimQuotes w) then trimQuotes w
    else findHashWords validate ws

/-- findHashInContent from scraper.go. -/
def findHashInContent (validate : List Char → Bool) (content : List Char) : List Char :=
  findHashWords validate (fieldsAux content [])

/-- Result of running a Go function that can panic; the loop below also
carries a recursion budget, whose exhaustion is reported apart. -/
inductive GoRes (α : Type) where
  | ok (a : α)
  | crashed
  | outOfFuel
deriving DecidableEq, Repr

/-- Go slice `s[i:]` with an Int index: panics when i is negative or
past the end. -/
def sliceFromI (s : List Char) (i : Int) : Option (List Char) :=
  if 0 ≤ i ∧ i ≤ (s.length : Int) then some (s.drop i.toNat) else none

/-- The adjustment the loop adds to the found index:
`strings.Index(htmlContent[:scriptStart], "<script")`, which is -1 when
the prefix holds no script tag. -/
def scriptAdj (html : List Char) (rIdx : Nat) : Int :=
  match strIndex (html.take rIdx) (r"<script".data) with
  | some k => (k : Int)
  | none => -1

/-- The script-tag scanning loop of extractHashFromScripts, including
its index arithmetic on the raw Go ints (a negative computed index makes
the Go slice expression panic). -/
def scriptsGo (html slug : List Char) (findIn : List Char → List Char) :
    Nat → Int → GoRes (List Char)
  | 0, _ => .outOfFuel
  | fuel+1, scriptStart =>
    match sliceFromI html scriptStart with
    | none => .crashed
    | some rest =>
      match strIndex rest (r"<script".data) with
      | none => .ok []
      | some rIdx =>
        match sliceFromI html ((rIdx : Int) + scriptAdj html rIdx) with
        | none => .crashed
        | some rest2 =>
          match strIndex rest2 (r"</script>".data) with
          | none => .ok []
          | some e =>
            if containsSub (rest2.take e) slug
                || containsSub (rest2.take e) (r"comicknew".data) then
              if (findIn (rest2.take e)).isEmpty then
                scriptsGo html slug findIn fuel ((rIdx : Int) + scriptAdj html rIdx + (e : Int))
              else .ok (findIn (rest2.take e))
            else scriptsGo html slug findIn fuel ((rIdx : Int) + scriptAdj html rIdx + (e : Int))

/-- extractHashFromScripts from scraper.go. -/
def extractHashFromScripts (html slug chap : List Char)
    (fetchStatus : List Char → Option Nat) (fuel : Nat) : GoRes (List Char) :=
  scriptsGo html slug (findHashInContent (validateHash fetchStatus slug chap)) fuel 0

def toLowerL (s : List Char) : List Char := s.map Char.toLower

/-- The candidate list built by guessHashFromHID. -/
def hidVariations (hid : List Char) : List (List Char) :=
  [hid, toLowerL hid] ++
    (if 8 ≤ hid.length then
      [hid.take 8, hid.drop (hid.length - 8), (toLowerL hid).take 8]
    else [])

/-- The candidate loop of guessHashFromHID: first 8-character
alphanumeric variation that the validator accepts. -/
def firstValidVar (validate : List Char → Bool) : List (List Char) → List Char
  | [] => []
  | h :: rest =>
    if h.length == 8 && IsAlphaNumeric h && validate h then h
    else firstValidVar validate rest

def guessHashFromHID (validate : List Char → Bool) (hid : List Char) : List Char :=
  firstValidVar validate (hidVariations hid)

/-- getChapterImageHashAdvanced: the chapter page body (`none` models a
transport or read error, which the function returns as an error), then
strategy 1 (pattern matching), strategy 2 (script scanning), strategy 3
(HID-derived guesses); `.ok none` is the "image hash not found" error
return. -/
def getChapterImageHashAdvanced (pageBody : Option (List Char))
    (fetchStatus : List Char → Option Nat) (slug hid chap : List Char)
    (fuel : Nat) : GoRes (Option (List Char)) :=
  match pageBody with
  | none => .ok none
  | some body =>
    if extractHashFromHTML body slug chap ≠ [] then
      .ok (some (extractHashFromHTML body slug chap))
    else
      match extractHashFromScripts body slug chap fetchStatus fuel with
      | .crashed => .crashed
      | .outOfFuel => .outOfFuel
      | .ok h2 =>
        if h2 ≠ [] then .ok (some h2)
        else if guessHashFromHID (validateHash fetchStatus slug chap) hid ≠ [] then
          .ok (some (guessHashFromHID (validateHash fetchStatus slug chap) hid))
        else .ok none

/-- A candidate that passes the 8-character alphanumeric guard. -/
theorem guardedHash_valid (h : List Char)
    (hcond : (h.length == 8 && IsAlphaNumeric h) = true) :
    h.length = 8 ∧ IsAlphaNumeric h = true := by
  simpa [Bool.and_eq_true, beq_iff_eq] using hcond

/-- hashAfter only returns 8-character alphanumeric strings. -/
theorem hashAfter_valid (html : List Char) (st : Nat) :
    hashAfter html st ≠ [] →
      (hashAfter html st).length = 8 ∧ IsAlphaNumeric (hashAfter html st) = true := by
  unfold hashAfter
  cases strIndex (html.drop st) (r"/".data) with
  | none => intro h; exact absurd rfl h
  | some e =>
    dsimp only
    by_cases hg : (((html.drop st).take e).length == 8
        && IsAlphaNumeric ((html.drop st).take e)) = true
    · rw [if_pos hg]
      intro _
      exact guardedHash_valid _ hg
    · rw [if_neg hg]
      intro h
      exact absurd rfl h

/-- extractDirect only returns 8-character alphanumeric strings. -/
theorem extractDirect_valid (html slug chap : List Char) :
    extractDirect html slug chap ≠ [] →
      (extractDirect html slug chap).length = 8
      ∧ IsAlphaNumeric (extractDirect html slug chap) = true := by
  unfold extractDirect
  cases strIndex html (cdnPatDirect slug chap) with
  | none => intro h; exact absurd rfl h
  | some st => exact hashAfter_valid html (st + (cdnPatDirect slug chap).length)

/-- extractFromEscapedPattern only returns 8-character alphanumeric
strings. -/
theorem extractFromEscapedPattern_valid (content pat : List Char) :
    extractFromEscapedPattern content pat ≠ [] →
      (extractFromEscapedPattern content pat).length = 8
      ∧ IsAlphaNumeric (extractFromEscapedPattern content pat) = true := by
  unfold extractFromEscapedPattern
  dsimp only
  split
  · intro h
    exact absurd rfl h
  · split
    · intro h
      exact absurd rfl h
    · split
      · intro h
        exact absurd rfl h
      · split
        · next hg =>
          intro _
          exact guardedHash_valid _ hg
        · intro h
          exact absurd rfl h

/-- extractHashFromHTML only returns 8-character alphanumeric strings. -/
theorem extractHashFromHTML_valid (html slug chap : List Char) :
    extractHashFromHTML html slug chap ≠ [] →
      (extractHashFromHTML html slug chap).length = 8
      ∧ IsAlphaNumeric (extractHashFromHTML html slug chap) = true := by
  unfold extractHashFromHTML
  by_cases h1 : extractDirect html slug chap ≠ []
  · rw [if_pos h1]
    intro _
    exact extractDirect_valid html slug chap h1
  · rw [if_neg h1]
    by_cases h2 : extractFromEscapedPattern html (escPat1 slug chap) ≠ []
    · rw [if_pos h2]
      intro _
      exact extractFromEscapedPattern_valid html (escPat1 slug chap) h2
    · rw [if_neg h2]
      exact extractFromEscapedPattern_valid html (escPat2 slug chap)

/-- Every hash returned by the word loop of findHashInContent was
accepted by the validator and is 8-character alphanumeric. -/
theorem findHashWords_valid (validate : List Char → Bool) :
    ∀ (ws : List (List Char)) (h : List Char), findHashWords validate ws = h → h ≠ [] →
      validate h = true ∧ h.length = 8 ∧ IsAlphaNumeric h = true := by
  intro ws
  induction ws with
  | nil =>
    intro h he hne
    simp only [findHashWords] at he
    exact absurd he.symm hne
  | cons w rest ih =>
    intro h he hne
    simp only [findHashWords] at he
    by_cases hg : ((trimQuotes w).length == 8 && IsAlphaNumeric (trimQuotes w)
        && validate (trimQuotes w)) = true
    · rw [if_pos hg] at he
      subst he
      simp only [Bool.and_eq_true, beq_iff_eq] at hg
      exact ⟨hg.2, hg.1.1, hg.1.2⟩
    · rw [if_neg hg] at he
      exact ih h he hne

/-- Every hash returned by the HID-variation loop was accepted by the
validator and is 8-character alphanumeric. -/
theorem firstValidVar_valid (validate : List Char → Bool) :
    ∀ (vs : List (List Char)) (h : List Char), firstValidVar validate vs = h → h ≠ [] →
      validate h = true ∧ h.length = 8 ∧ IsAlphaNumeric h = true := by
  intro vs
  induction vs with
  | nil =>
    intro h he hne
    simp only [firstValidVar] at he
    exact absurd he.symm hne
  | cons v rest ih =>
    intro h he hne
    simp only [firstValidVar] at he
    by_cases hg : (v.length == 8 && IsAlphaNumeric v && validate v) = true
    · rw [if_pos hg] at he
      subst he
      simp only [Bool.and_eq_true, beq_iff_eq] at hg
      exact ⟨hg.2, hg.1.1, hg.1.2⟩
    · rw [if_neg hg] at he
      exact ih h he hne

/-- Every hash returned by the script-scanning loop was accepted by the
validator and is 8-character alphanumeric. -/
theorem scriptsGo_valid (html slug : List Char) (validate : List Char → Bool) :
    ∀ (fuel : Nat) (st : Int) (h : List Char),
      scriptsGo html slug (findHashInContent validate) fuel st = .ok h → h ≠ [] →
      validate h = true ∧ h.length = 8 ∧ IsAlphaNumeric h = true := by
  intro fuel
  induction fuel with
  | zero =>
    intro st h he hne
    simp [scriptsGo] at he
  | succ n ih =>
    intro st h he hne
    simp only [scriptsGo] at he
    split at he
    · exact GoRes.noConfusion he
    · split at he
      · injection he with h2
        exact absurd h2.symm hne
      · split at he
        · exact GoRes.noConfusion he
        · split at he
          · injection he with h2
            exact absurd h2.symm hne
          · split at he
            · split at he
              · exact ih _ h he hne
              · injection he with h2
                exact findHashWords_valid validate _ h h2 hne
            · exact ih _ h he hne

/-- C7 counterexample: a page whose raw markup carries the direct CDN
pattern makes getChapterImageHashAdvanced return that hash even though
the index-0 validation fetch of this very hash fails (every request
returns 404), contradicting the claim that a hash is returned only when
its candidate yields an HTTP 200 on the index-0 probe. -/
theorem c7_counterexample :
    getChapterImageHashAdvanced
        (some (r"cdn1.comicknew.pictures/s/0_1/en/abcd1234/0.webp".data))
        (fun _ => some 404) (r"s".data) (r"zzzz".data) (r"1".data) 50
      = .ok (some (r"abcd1234".data))
    ∧ validateHash (fun _ => some 404) (r"s".data) (r"1".data) (r"abcd1234".data)
      = false := by
  constructor
  · decide
  · decide

/-- C7 amended: the strategies are tried in order (direct raw pattern
and escaped-JSON pattern, then script scanning, then HID-derived
guesses); candidates from the script and HID strategies are validated by
fetching index 0 and accepted exactly on HTTP 200, while a direct or
escaped pattern candidate is returned without any validation fetch; a
returned hash is always an 8-character alphanumeric string; and when
every strategy is exhausted the resolution returns the hash-not-found
error for that chapter only. -/
theorem c7_hash_resolution (slug0 : List Char) :
    (∀ (body slug hid chap : List Char) (fetchStatus : List Char → Option Nat) (fuel : Nat),
        extractHashFromHTML body slug chap ≠ [] →
        getChapterImageHashAdvanced (some body) fetchStatus slug hid chap fuel
          = .ok (some (extractHashFromHTML body slug chap)))
    ∧ (∀ (body slug chap : List Char), extractHashFromHTML body slug chap ≠ [] →
        (extractHashFromHTML body slug chap).length = 8
        ∧ IsAlphaNumeric (extractHashFromHTML body slug chap) = true)
    ∧ (∀ (html slug : List Char) (validate : List Char → Bool) (fuel : Nat) (st : Int)
        (h : List Char),
        scriptsGo html slug (findHashInContent validate) fuel st = .ok h → h ≠ [] →
        validate h = true ∧ h.length = 8 ∧ IsAlphaNumeric h = true)
    ∧ (∀ (validate : List Char → Bool) (hid h : List Char),
        guessHashFromHID validate hid = h → h ≠ [] →
        validate h = true ∧ h.length = 8 ∧ IsAlphaNumeric h = true)
    ∧ (∀ (body hid chap : List Char) (fetchStatus : List Char → Option Nat) (fuel : Nat),
        extractHashFromHTML body slug0 chap = [] →
        extractHashFromScripts body slug0 chap fetchStatus fuel = .ok [] →
        guessHashFromHID (validateHash fetchStatus slug0 chap) hid = [] →
        getChapterImageHashAdvanced (some body) fetchStatus slug0 hid chap fuel
          = .ok none) := by
  refine ⟨?_, extractHashFromHTML_valid, scriptsGo_valid, ?_, ?_⟩
  · intro body slug hid chap fetchStatus fuel h1
    simp only [getChapterImageHashAdvanced]
    rw [if_pos h1]
  · intro validate hid h he hne
    exact firstValidVar_valid validate (hidVariations hid) h he hne
  · intro body hid chap fetchStatus fuel h1 h2 h3
    simp only [extractHashFromScripts] at h2
    simp [getChapterImageHashAdvanced, extractHashFromScripts, h1, h2, h3]

theorem c7_witness :
    getChapterImageHashAdvanced
        (some (r"cdn1.comicknew.pictures/s/0_1/en/abcd1234/0.webp".data))
        (fun _ => none) (r"s".data) (r"zzzz".data) (r"1".data) 9
      = .ok (some (extractHashFromHTML
          (r"cdn1.comicknew.pictures/s/0_1/en/abcd1234/0.webp".data)
          (r"s".data) (r"1".data))) :=
  (c7_hash_resolution []).1
    (r"cdn1.comicknew.pictures/s/0_1/en/abcd1234/0.webp".data)
    (r"s".data) (r"zzzz".data) (r"1".data) (fun _ => none) 9 (by decide)

/-! ## Asura catalog parsing (asura_adapter.go getAllSeries /
parseSeriesFromHTML, part_003 variant with the seen-set)

The regex capture step is the site-specific black box: a fetched page is
modelled by the list of slugs captured by the series-link pattern (a
failed fetch or read contributes no slugs).  parseSeriesFromHTML is
embedded from the captured slugs on: the per-call seen-set, the
last-dash split into title and HID, the HID validity check, and the
title normalization (dashes to spaces, ToLower, then Title). -/

structure AsuraSeries where
  slug : String
  title : String
  hid : String
deriving DecidableEq, Repr

/-- strings.LastIndex(s, "-") as an option. -/
def lastDashIdx (s : List Char) : Option Nat :=
  match s.reverse.findIdx? (fun c => c == Char.ofNat 45) with
  | some j => some (s.length - 1 - j)
  | none => none

def replaceDashSpace (s : List Char) : List Char :=
  s.map (fun c => if c == Char.ofNat 45 then Char.ofNat 32 else c)

/-- strings.Title on ASCII input: uppercase a letter that follows a
non-letter. -/
def goTitleAux : Bool → List Char → List Char
  | _, [] => []
  | prevLetter, c :: rest =>
    (if c.isAlpha && !prevLetter then c.toUpper else c) :: goTitleAux c.isAlpha rest

def goTitle (s : List Char) : List Char := goTitleAux false s

/-- The title computed from the slug part before the last dash. -/
def asuraTitleOfBase (base : List Char) : String :=
  String.mk (goTitle (toLowerL (replaceDashSpace base)))

/-- The loop body of parseSeriesFromHTML over the captured slugs, with
the seen-set threaded as a list. -/
def parseSeriesGo : List String → List String → List AsuraSeries
  | [], _ => []
  | s :: rest, seen =>
    if s ∈ seen then parseSeriesGo rest seen
    else
      match lastDashIdx s.data with
      | some i =>
        if 0 < i ∧ i + 1 < s.data.length then
          if IsAlphaNumeric (s.data.drop (i+1)) then
            if 8 ≤ (s.data.drop (i+1)).length then
              ⟨s, asuraTitleOfBase (s.data.take i), String.mk (s.data.drop (i+1))⟩ ::
                parseSeriesGo rest (s :: seen)
            else parseSeriesGo rest (s :: seen)
          else parseSeriesGo rest (s :: seen)
        else parseSeriesGo rest (s :: seen)
      | none => parseSeriesGo rest (s :: seen)

/-- parseSeriesFromHTML with a fresh seen-set, as each call makes. -/
def parseSeriesPage (slugs : List String) : List AsuraSeries :=
  parseSeriesGo slugs []

/-- Outcome of fetching one catalog page. -/
inductive APage where
  | fetchErr
  | readErr
  | body (slugs : List String)
deriving DecidableEq, Repr

/-- The per-page contribution inside the getAllSeries fan-out: a fetch
or read failure is logged and contributes nothing. -/
def asuraPageContrib : APage → List AsuraSeries
  | .fetchErr => []
  | .readErr => []
  | .body slugs => parseSeriesPage slugs

/-- getAllSeries: pages 1..20, each parsed independently, appended into
one list, with a nil error. -/
def getAllSeries (fetchPage : Nat → APage) : List AsuraSeries × Option String :=
  (((List.range 20).map (fun p => asuraPageContrib (fetchPage (p+1)))).flatten, none)

/-- Seen-set invariant: one parseSeriesFromHTML call emits each slug at
most once, and never a slug already in the seen-set. -/
theorem parseSeriesGo_nodup :
    ∀ (slugs seen : List String),
      ((parseSeriesGo slugs seen).map (fun x => x.slug)).Nodup
      ∧ ∀ s ∈ (parseSeriesGo slugs seen).map (fun x => x.slug), s ∉ seen := by
  intro slugs
  induction slugs with
  | nil => intro seen; simp [parseSeriesGo]
  | cons s rest ih =>
    intro seen
    by_cases hmem : s ∈ seen
    · simpa [parseSeriesGo, hmem] using ih seen
    · simp only [parseSeriesGo, if_neg hmem]
      cases hd : lastDashIdx s.data with
      | none => exact ⟨(ih (s :: seen)).1,
          fun t ht => fun hts => (ih (s :: seen)).2 t ht (List.mem_cons_of_mem s hts)⟩
      | some i =>
        dsimp only
        by_cases hb : 0 < i ∧ i + 1 < s.data.length
        · rw [if_pos hb]
          by_cases ha : IsAlphaNumeric (s.data.drop (i+1)) = true
          · rw [if_pos ha]
            by_cases hl : 8 ≤ (s.data.drop (i+1)).length
            · rw [if_pos hl]
              refine ⟨?_, ?_⟩
              · simp only [List.map_cons]
                refine List.nodup_cons.mpr ⟨?_, (ih (s :: seen)).1⟩
                intro hc
                exact (ih (s :: seen)).2 s hc (List.mem_cons_self s seen)
              · intro t ht hts
                simp only [List.map_cons, List.mem_cons] at ht
                rcases ht with rfl | ht
                · exact hmem hts
                · exact (ih (s :: seen)).2 t ht (List.mem_cons_of_mem s hts)
            · rw [if_neg hl]
              exact ⟨(ih (s :: seen)).1,
                fun t ht hts => (ih (s :: seen)).2 t ht (List.mem_cons_of_mem s hts)⟩
          · rw [if_neg ha]
            exact ⟨(ih (s :: seen)).1,
              fun t ht hts => (ih (s :: seen)).2 t ht (List.mem_cons_of_mem s hts)⟩
        · rw [if_neg hb]
          exact ⟨(ih (s :: seen)).1,
            fun t ht hts => (ih (s :: seen)).2 t ht (List.mem_cons_of_mem s hts)⟩

/-- C8 counterexample: the same slug captured on two different catalog
pages appears twice in the merged list of getAllSeries, so the merged
list does not contain each full slug at most once. -/
theorem c8_counterexample :
    (((getAllSeries (fun p => if p ≤ 2 then .body [r"solo-leveling-abc12345"]
        else .body [])).1.map (fun x => x.slug)).count r"solo-leveling-abc12345") = 2 := by
  decide

/-- C8 amended: the seen-set of parseSeriesFromHTML is per page: within
one page each full slug is emitted at most once, but getAllSeries only
concatenates the per-page results, so a slug appearing on several pages
is not deduplicated across pages. -/
theorem c8_dedup_per_page_only (fetchPage : Nat → APage) :
    (∀ slugs : List String, ((parseSeriesPage slugs).map (fun x => x.slug)).Nodup)
    ∧ (getAllSeries fetchPage).1 =
        ((List.range 20).map (fun p => asuraPageContrib (fetchPage (p+1)))).flatten
    ∧ (getAllSeries fetchPage).2 = none := by
  exact ⟨fun slugs => (parseSeriesGo_nodup slugs []).1, rfl, rfl⟩

/-! ## Destination paths (comick_adapter.go downloadChapter /
downloadCover, part_003 downloadChapter / downloadChapterImagesFromURLs
/ downloadCover)

filepath.Join is written out as "/"-joining; on the clean relative
components used here Join performs no further rewriting. -/

/-- fmt.Sprintf with format %03d. -/
def pad3 (n : Nat) : String :=
  if 3 ≤ (Nat.repr n).length then Nat.repr n
  else if (Nat.repr n).length = 2 then r"0" ++ Nat.repr n
  else r"00" ++ Nat.repr n

/-- Comick chapter directory: downloads/SLUG/chapter_CHAP with the chap
string exactly as carried by the chapter from discovery. -/
def comickChapterDir (slug chap : String) : String :=
  r"downloads/" ++ slug ++ r"/chapter_" ++ chap

/-- Comick image destination: the 0-based loop index zero-padded. -/
def comickImagePath (slug chap : String) (i : Nat) : String :=
  comickChapterDir slug chap ++ r"/" ++ pad3 i ++ r".webp"

/-- Comick cover extension choice from the cover URL. -/
def comickCoverExt (coverURL : String) : String :=
  if containsSub coverURL.data (r".jpg".data) then r".jpg"
  else if containsSub coverURL.data (r".png".data) then r".png"
  else r".webp"

def comickCoverPath (slug coverURL : String) : String :=
  r"downloads/" ++ slug ++ r"/cover" ++ comickCoverExt coverURL

/-- Asura chapter directory: downloads/TITLE/chapter_N+1 for the 0-based
discovered chapter number N (the Go code shifts to 1-based display). -/
def asuraChapterDir (title : String) (chapterNum : Nat) : String :=
  r"downloads/" ++ title ++ r"/chapter_" ++ Nat.repr (chapterNum + 1)

def asuraImagePath (title : String) (chapterNum idx : Nat) : String :=
  asuraChapterDir title chapterNum ++ r"/" ++ pad3 idx ++ r".webp"

def asuraCoverPath (title : String) : String :=
  r"downloads/" ++ title ++ r"/cover.webp"

/-- C9 counterexample: for the Asura series discovered from slug
solo-leveling-abc12345, chapter 0 image 0 is written under the parsed
title and the shifted chapter number, not under the slug with the
discovery numbering as the claim states. -/
theorem c9_counterexample :
    (parseSeriesPage [r"solo-leveling-abc12345"]).map
        (fun x => asuraImagePath x.title 0 0)
      = [r"downloads/Solo Leveling/chapter_1/000.webp"]
    ∧ (r"downloads/Solo Leveling/chapter_1/000.webp" : String)
      ≠ r"downloads/solo-leveling-abc12345/chapter_0/000.webp" := by
  constructor
  · decide
  · decide

/-- C9 amended: Comick image paths follow
downloads/SLUG/chapter_CHAP/III.webp with CHAP exactly the discovery
numbering string and III the zero-padded 0-based index, and Comick
covers go to downloads/SLUG/cover.EXT; Asura paths instead use the
parsed series title as directory and shift the 0-based discovered
chapter number up by one, with covers at downloads/TITLE/cover.webp. -/
theorem c9_paths (slug chap title : String) (n i : Nat) :
    comickImagePath slug chap i =
      r"downloads/" ++ slug ++ r"/chapter_" ++ chap ++ r"/" ++ pad3 i ++ r".webp"
    ∧ comickCoverPath r"sl" r"x.jpg" = r"downloads/sl/cover.jpg"
    ∧ comickCoverPath r"sl" r"x.webp" = r"downloads/sl/cover.webp"
    ∧ asuraImagePath title n i =
        r"downloads/" ++ title ++ r"/chapter_" ++ Nat.repr (n + 1) ++ r"/" ++ pad3 i
          ++ r".webp"
    ∧ asuraCoverPath title = r"downloads/" ++ title ++ r"/cover.webp"
    ∧ pad3 0 = r"000" ∧ pad3 7 = r"007" ∧ pad3 42 = r"042" ∧ pad3 123 = r"123" := by
  exact ⟨rfl, by decide, by decide, rfl, rfl, by decide, by decide, by decide, by decide⟩

/-! ## DownloadAll pipelines (comick_adapter.go DownloadAll /
getAllManhwas / downloadManhwasParallel, asura_adapter.go DownloadAll /
getAllSeries / downloadSeriesParallel)

getAllManhwas fans out pages 1..3830; a page goroutine whose fetch or
JSON decode fails logs and contributes nothing; the function has a
single return statement, yielding the collected list and a nil error.
The parallel download stage logs each per-item error under the mutex
and likewise has a single `return nil`. -/

structure ComickManhwa where
  id : Int
  hid : String
  slug : String
  title : String
  thumbnail : String
deriving DecidableEq, Repr

/-- Outcome of one catalog page request. -/
inductive CPage where
  | fetchErr
  | decodeErr
  | pageOf (ms : List ComickManhwa)
deriving DecidableEq, Repr

/-- The per-page contribution inside the getAllManhwas fan-out,
including the startID filter. -/
def comickPageContrib (startID : Int) : CPage → List ComickManhwa
  | .fetchErr => []
  | .decodeErr => []
  | .pageOf ms => ms.filter (fun m => startID == 0 || decide (startID ≤ m.id))

def getAllManhwas (fetchPage : Nat → CPage) (startID : Int) :
    List ComickManhwa × Option String :=
  (((List.range 3830).map (fun p => comickPageContrib startID (fetchPage (p+1)))).flatten,
    none)

/-- downloadManhwasParallel: every per-item result is consumed by the
logging block and dropped; the function returns nil. -/
def downloadManhwasParallel (dm : ComickManhwa → Option String)
    (ms : List ComickManhwa) : Option String :=
  (ms.map dm).foldl (fun acc _ => acc) none

/-- ComickAdapter.DownloadAll. -/
def comickDownloadAll (fetchPage : Nat → CPage)
    (dm : ComickManhwa → Option String) : Option String :=
  match getAllManhwas fetchPage 0 with
  | (_, some e) => some e
  | (ms, none) => downloadManhwasParallel dm ms

/-- downloadSeriesParallel of the Asura adapter, same shape. -/
def downloadSeriesParallel (ds : AsuraSeries → Option String)
    (ss : List AsuraSeries) : Option String :=
  (ss.map ds).foldl (fun acc _ => acc) none

/-- AsuraAdapter.DownloadAll. -/
def asuraDownloadAll (fetchPage : Nat → APage)
    (ds : AsuraSeries → Option String) : Option String :=
  match getAllSeries fetchPage with
  | (_, some e) => some e
  | (ss, none) => downloadSeriesParallel ds ss

theorem foldl_keep_init {α : Type} (l : List α) :
    ∀ init : Option String, l.foldl (fun acc _ => acc) init = init := by
  induction l with
  | nil => intro init; rfl
  | cons a rest ih => intro init; exact ih init

/-- C10: whatever every fetch and every per-item download do, both
DownloadAll pipelines return nil: catalog discovery absorbs page
failures as zero entries and returns a nil error, and the parallel
download stage returns nil. -/
theorem c10_downloadAll_never_errors :
    (∀ (fetchPage : Nat → CPage) (dm : ComickManhwa → Option String),
        comickDownloadAll fetchPage dm = none)
    ∧ (∀ (fetchPage : Nat → APage) (ds : AsuraSeries → Option String),
        asuraDownloadAll fetchPage ds = none)
    ∧ (∀ startID : Int, comickPageContrib startID .fetchErr = []
        ∧ comickPageContrib startID .decodeErr = [])
    ∧ (asuraPageContrib .fetchErr = [] ∧ asuraPageContrib .readErr = [])
    ∧ (∀ (fetchPage : Nat → CPage) (startID : Int),
        (getAllManhwas fetchPage startID).2 = none)
    ∧ (∀ fetchPage : Nat → APage, (getAllSeries fetchPage).2 = none) := by
  refine ⟨?_, ?_, fun _ => ⟨rfl, rfl⟩, ⟨rfl, rfl⟩, fun _ _ => rfl, fun _ => rfl⟩
  · intro fetchPage dm
    exact foldl_keep_init _ none
  · intro fetchPage ds
    exact foldl_keep_init _ none

end Scrapers
